import Mathlib

/-!
Shallow embedding of the `udibo/http-error` module (`src/mod.ts`) and proofs
about its specification.  The embedding follows the source: the overloaded
constructor-argument resolution (`optionsFromArgs`), the `HttpError`
constructor, the `HttpError.from` normalization operation, `toJSON`, and the
`createHttpErrorClass` factory.  JavaScript `undefined` is modelled with
`Option`; thrown errors are modelled with `Except`.
-/

/-- A JSON value, as can be produced by parsing a response body or written as a
JavaScript object literal. -/
inductive JsonValue where
  | nullV
  | boolV (b : Bool)
  | num (n : Int)
  | str (s : String)
  | arr (elems : List JsonValue)
  | obj (fields : List (String × JsonValue))

/-- A JavaScript object, as an ordered list of key/value pairs with unique
keys (object literals and spreads only ever produce unique keys). -/
abbrev JsonObj := List (String × JsonValue)

/-- Property read: the value stored at key `k`, if any (keys are unique, so
the first match is the only one). -/
def JsonObj.get : JsonObj → String → Option JsonValue
  | [], _ => none
  | p :: rest, k => if p.1 == k then some p.2 else JsonObj.get rest k

/-- The `k in o` test. -/
def JsonObj.hasKey (o : JsonObj) (k : String) : Bool :=
  o.any (fun p => p.1 == k)

/-- Property write: replaces the value at key `k` in place, or appends the key.
This is the semantics of `{...o, k: v}` for a single key. -/
def JsonObj.setKey : JsonObj → String → JsonValue → JsonObj
  | [], k, v => [(k, v)]
  | p :: rest, k, v => if p.1 == k then (k, v) :: rest else p :: JsonObj.setKey rest k v

/-- Rest-destructuring `{a, b, ...rest} = o`: all keys not in `ks`. -/
def JsonObj.removeKeys (o : JsonObj) (ks : List String) : JsonObj :=
  o.filter (fun p => !(ks.contains p.1))

/-- Object spread `{...a, ...b}`: keys of `b` override keys of `a`. -/
def JsonObj.spread (a b : JsonObj) : JsonObj :=
  b.foldl (fun acc p => JsonObj.setKey acc p.1 p.2) a

/-- An arbitrary JavaScript value used as an error `cause`.  Causes are
carried through unchanged and never inspected by the module, so originating
error/response objects are represented by identifying tags. -/
inductive CauseV where
  | undef
  | nullV
  | num (n : Int)
  | str (s : String)
  | boolV (b : Bool)
  | symbolV
  | funcV
  | jsonV (j : JsonValue)
  | errRef (name message : String)
  | httpRef (name message : String)
  | respRef (status : Int)
  | parseError
  | rangeError (message : String)

/-- ASCII lower-casing, used for header-name normalization. -/
def lowerStr (s : String) : String := String.mk (s.data.map Char.toLower)

/-- A `Headers` map: lower-cased names to values. -/
structure Headers where
  entries : List (String × String)

/-- `new Headers(record)`: header names are normalized to lower case. -/
def Headers.ofRecord (r : List (String × String)) : Headers :=
  ⟨r.map (fun p => (lowerStr p.1, p.2))⟩

/-- `headers.has(name)`: case-insensitive name lookup. -/
def Headers.hasName (h : Headers) (name : String) : Bool :=
  h.entries.any (fun p => p.1 == lowerStr name)

/-- `headers.set(name, value)`: replaces the value for the name, or appends. -/
def Headers.setName (h : Headers) (name value : String) : Headers :=
  let key := lowerStr name
  if h.entries.any (fun p => p.1 == key) then
    ⟨h.entries.map (fun p => if p.1 == key then (key, value) else p)⟩
  else ⟨h.entries ++ [(key, value)]⟩

/-- The `headers` option: either a `Headers` instance or a plain record. -/
inductive HeadersInit where
  | inst (h : Headers)
  | record (r : List (String × String))

/-- The `HttpErrorOptions` record.  Absent (`undefined`) fields are `none`. -/
structure HttpErrorOptions where
  name? : Option String := none
  message? : Option String := none
  status? : Option Int := none
  statusText? : Option String := none
  expose? : Option Bool := none
  cause? : Option CauseV := none
  type? : Option String := none
  instance? : Option String := none
  extensions? : Option JsonObj := none
  headers? : Option HeadersInit := none
  exposedMessage? : Option String := none

/-- The fields of a constructed `HttpError` object. -/
structure HttpErrorData where
  name : String
  message : String
  status : Int
  statusText? : Option String
  expose : Bool
  cause? : Option CauseV
  type? : Option String
  instance? : Option String
  extensions : JsonObj
  headers : Headers
  exposedMessage : String

/-- The `DEFAULT_EXPOSED_MESSAGES` table from the source. -/
def DEFAULT_EXPOSED_MESSAGES : List (Int × String) := [
  (400, "The server cannot process the request due to a client error."),
  (401, "Authentication is required to access this resource."),
  (402, "Payment is required to access this resource."),
  (403, "You do not have permission to access this resource."),
  (404, "The requested resource could not be found."),
  (405, "The request method is not supported for this resource."),
  (406, "The server cannot produce a response matching the acceptable values."),
  (407, "Proxy authentication is required."),
  (408, "The server timed out waiting for the request."),
  (409, "The request conflicts with the current state of the resource."),
  (410, "The requested resource is no longer available."),
  (411, "The request requires a Content-Length header."),
  (412, "A precondition in the request headers was not met."),
  (413, "The request body is larger than the server is willing to process."),
  (414, "The request URI is longer than the server is willing to process."),
  (415, "The request uses a media type that is not supported."),
  (416, "The requested range cannot be satisfied."),
  (417, "The expectation in the Expect header cannot be met."),
  (418, "The server refuses to brew coffee because it is a teapot."),
  (421, "The request was directed at a server unable to produce a response."),
  (422, "The request was well-formed but contained semantic errors."),
  (423, "The requested resource is locked."),
  (424, "The request failed due to a previous request failure."),
  (425, "The server is unwilling to process a request that might be replayed."),
  (426, "The client must upgrade to a different protocol."),
  (428, "The request must be conditional."),
  (429, "Too many requests have been sent in a given amount of time."),
  (431, "The request headers are too large."),
  (451, "The resource is unavailable for legal reasons."),
  (500, "The server encountered an unexpected condition."),
  (501, "The server does not support the functionality required."),
  (502, "The server received an invalid response from an upstream server."),
  (503, "The server is currently unavailable."),
  (504, "The server did not receive a timely response from an upstream server."),
  (505, "The HTTP version used in the request is not supported."),
  (506, "The server has an internal configuration error."),
  (507, "The server has insufficient storage to complete the request."),
  (508, "The server detected an infinite loop while processing the request."),
  (510, "Further extensions to the request are required."),
  (511, "Network authentication is required to access this resource.")]

/-- `defaultExposedMessageForStatus` from the source: the table entry, falling
back to a generic client/server phrase. -/
def defaultExposedMessageForStatus (status : Int) : String :=
  match (DEFAULT_EXPOSED_MESSAGES.find? (fun p => p.1 == status)).map (·.2) with
  | some m => m
  | none => if status < 500 then "A client error occurred." else "A server error occurred."

/-- The error-status rows of the external `STATUS_TEXT` reason-phrase table
(`@std/http/status`), which the source consumes; only 4xx/5xx entries can be
observed through this module.  The entries relevant to the repository's tests
(for example 404 and 500) match the phrases those tests assert. -/
def STATUS_TEXT : List (Int × String) := [
  (400, "Bad Request"),
  (401, "Unauthorized"),
  (402, "Payment Required"),
  (403, "Forbidden"),
  (404, "Not Found"),
  (405, "Method Not Allowed"),
  (406, "Not Acceptable"),
  (407, "Proxy Authentication Required"),
  (408, "Request Timeout"),
  (409, "Conflict"),
  (410, "Gone"),
  (411, "Length Required"),
  (412, "Precondition Failed"),
  (413, "Content Too Large"),
  (414, "URI Too Long"),
  (415, "Unsupported Media Type"),
  (416, "Range Not Satisfiable"),
  (417, "Expectation Failed"),
  (418, "I\x27m a teapot"),
  (421, "Misdirected Request"),
  (422, "Unprocessable Entity"),
  (423, "Locked"),
  (424, "Failed Dependency"),
  (425, "Too Early"),
  (426, "Upgrade Required"),
  (428, "Precondition Required"),
  (429, "Too Many Requests"),
  (431, "Request Header Fields Too Large"),
  (451, "Unavailable For Legal Reasons"),
  (500, "Internal Server Error"),
  (501, "Not Implemented"),
  (502, "Bad Gateway"),
  (503, "Service Unavailable"),
  (504, "Gateway Timeout"),
  (505, "HTTP Version Not Supported"),
  (506, "Variant Also Negotiates"),
  (507, "Insufficient Storage"),
  (508, "Loop Detected"),
  (510, "Not Extended"),
  (511, "Network Authentication Required")]

/-- `STATUS_TEXT[status]` lookup. -/
def statusTextFor (status : Int) : Option String :=
  (STATUS_TEXT.find? (fun p => p.1 == status)).map (·.2)

/-- `errorNameForStatus` from the source. -/
def errorNameForStatus (status : Int) : String :=
  match statusTextFor status with
  | some t => t
  | none => if status < 500 then "Unknown Client Error" else "Unknown Server Error"

/-- A character matched by the regular-expression class `\w`. -/
def isWordChar (c : Char) : Bool := c.isAlphanum || c == '_'

/-- `s.replace(/\W/g, "")`. -/
def stripNonWord (s : String) : String := String.mk (s.data.filter isWordChar)

/-- `matchesOldNameFormat` from the source: whether `name` is the legacy
`"{StatusText}Error"` spelling for `status`. -/
def matchesOldNameFormat (name : Option String) (status : Int) : Bool :=
  match name with
  | none => false
  | some n =>
    if n == "" then false
    else match statusTextFor status with
      | none => false
      | some st => n == stripNonWord st ++ "Error"

/-- Truthiness filter for optional string fields assigned under `if (x)`. -/
def truthyOpt (o : Option String) : Option String :=
  match o with
  | some s => if s == "" then none else some s
  | none => none

/-- The headers normalization performed by the constructor: a `Headers`
instance is used as is, a record is converted, and a `content-type` entry is
inserted when missing. -/
def resolveHeaders (h? : Option HeadersInit) : Headers :=
  let headers0 := match h? with
    | some (.inst h) => h
    | some (.record r) => Headers.ofRecord r
    | none => Headers.ofRecord []
  if Headers.hasName headers0 "content-type" then headers0
  else Headers.setName headers0 "content-type" "application/problem+json"

/-- The field initialization performed by the `HttpError` constructor after
the status-range check has passed. -/
def HttpError.initFields (init : HttpErrorOptions) : HttpErrorData :=
  let status := init.status?.getD 500
  let message := init.message?.getD ""
  let name := init.name?.getD (errorNameForStatus status)
  let expose := init.expose?.getD (decide (status < 500))
  let headers := resolveHeaders init.headers?
  let exposedMessage := init.exposedMessage?.getD
    (if expose && !(message == "") then message else defaultExposedMessageForStatus status)
  { name := name
    message := message
    status := status
    statusText? := truthyOpt init.statusText?
    expose := expose
    cause? := init.cause?
    type? := truthyOpt init.type?
    instance? := truthyOpt init.instance?
    extensions := init.extensions?.getD []
    headers := headers
    exposedMessage := exposedMessage }

/-- The `HttpError` constructor applied to a resolved options record: throws
`RangeError("invalid error status")` when the resolved status is outside
`[400, 599]`, otherwise initializes the fields. -/
def HttpError.construct (init : HttpErrorOptions) : Except String HttpErrorData :=
  if init.status?.getD 500 < 400 ∨ 600 ≤ init.status?.getD 500 then
    .error "invalid error status"
  else .ok (HttpError.initFields init)

/-- A positional constructor argument: a status number, a message string, or
an options record (`none` models an absent/`undefined` argument). -/
inductive ArgVal where
  | num (n : Int)
  | str (s : String)
  | opts (o : HttpErrorOptions)

/-- Reading `init?.message` where `init` holds an arbitrary argument value
(property reads on numbers and strings yield `undefined`). -/
def ArgVal.initMessage : Option ArgVal → Option String
  | some (.opts o) => o.message?
  | _ => none

/-- Reading `init?.status`. -/
def ArgVal.initStatus : Option ArgVal → Option Int
  | some (.opts o) => o.status?
  | _ => none

/-- Spreading `{...init}` where `init` holds an arbitrary argument value
(spreading `undefined` or a number yields no properties). -/
def ArgVal.initSpread : Option ArgVal → HttpErrorOptions
  | some (.opts o) => o
  | _ => {}

/-- JavaScript truthiness of an argument value. -/
def ArgVal.truthy : Option ArgVal → Bool
  | none => false
  | some (.num n) => n != 0
  | some (.str s) => s != ""
  | some (.opts _) => true

/-- `optionsFromArgs` from the source: resolves the four overloaded call
shapes into one options record, returning `{...init, status, message}`. -/
def optionsFromArgs (statusOrMessageOrOptions messageOrOptions : Option ArgVal)
    (options : Option HttpErrorOptions) : HttpErrorOptions :=
  let ret : Option Int → Option String → Option ArgVal → HttpErrorOptions := fun st ms init =>
    { ArgVal.initSpread init with status? := st, message? := ms }
  let optInit : Option ArgVal := options.map ArgVal.opts
  match statusOrMessageOrOptions with
  | some (.num n) =>
    match messageOrOptions with
    | some (.str s) => ret (some n) (some s) optInit
    | mb =>
      if ArgVal.truthy mb then ret (some n) (ArgVal.initMessage mb) mb
      else ret (some n) none optInit
  | some (.str s) => ret (ArgVal.initStatus messageOrOptions) (some s) messageOrOptions
  | a =>
    match messageOrOptions with
    | some (.str s) => ret none (some s) optInit
    | mb =>
      if options.isNone then
        let init := if ArgVal.truthy mb then mb else a
        ret (ArgVal.initStatus init) (ArgVal.initMessage init) init
      else ret none none optInit

/-- `new HttpError(...)` with the overloaded argument list. -/
def HttpError.new (a b : Option ArgVal) (o : Option HttpErrorOptions) :
    Except String HttpErrorData :=
  HttpError.construct (optionsFromArgs a b o)

/-- `new HttpError(500, message, { cause })`; status 500 passes the range
check, so this constructor call cannot throw. -/
def HttpError.new500 (message : String) (cause : CauseV) : HttpErrorData :=
  HttpError.initFields
    (optionsFromArgs (some (.num 500)) (some (.str message)) (some { cause? := some cause }))

/-- An `Error` instance (not an `HttpError`), possibly carrying the extra
properties that `HttpError.from` destructures off error-like values.  A
non-numeric `status` property behaves exactly like an absent one (the value
then takes the generic-`Error` branch of `from`), so `status?` holds only
numeric statuses. -/
structure ErrorData where
  name : String := "Error"
  message : String := ""
  status? : Option Int := none
  expose? : Option Bool := none
  cause? : Option CauseV := none
  type? : Option String := none
  instance? : Option String := none
  extensions? : Option JsonObj := none
  headers? : Option HeadersInit := none
  exposedMessage? : Option String := none

/-- A network `Response`: its transport status and the outcome of `json()`. -/
structure ResponseData where
  status : Int
  body : Except Unit JsonValue

/-- An arbitrary JavaScript value passed to `HttpError.from`. -/
inductive JsValue where
  | undef
  | nullV
  | num (n : Int)
  | str (s : String)
  | boolV (b : Bool)
  | symbolV
  | funcV
  | obj (fields : JsonObj)
  | errV (e : ErrorData)
  | httpErrV (h : HttpErrorData)
  | respV (r : ResponseData)

/-- A value, viewed as a `cause`. -/
def causeOfJs : JsValue → CauseV
  | .undef => .undef
  | .nullV => .nullV
  | .num n => .num n
  | .str s => .str s
  | .boolV b => .boolV b
  | .symbolV => .symbolV
  | .funcV => .funcV
  | .obj o => .jsonV (.obj o)
  | .errV e => .errRef e.name e.message
  | .httpErrV h => .httpRef h.name h.message
  | .respV r => .respRef r.status

/-- `isProblemDetails` from the source: a non-null object with at least one of
the keys `status`, `title`, `type`. -/
def isProblemDetailsJson : JsonValue → Bool
  | .obj o => JsonObj.hasKey o "status" || JsonObj.hasKey o "title" || JsonObj.hasKey o "type"
  | _ => false

/-- `isHttpErrorLike` from the source: an `HttpError` instance, or an `Error`
instance with a numeric `status` property. -/
def isHttpErrorLike : JsValue → Bool
  | .httpErrV _ => true
  | .errV e => e.status?.isSome
  | _ => false

/-- An exact JS number value: a finite value `num / den` (with `den > 0`), or
an infinity (`NaN` is represented by `Option.none` at the use sites).  Values
are kept exact rather than rounded to IEEE-754 doubles; this differs from an
engine only for decimal literals within double-rounding distance of the
integer bounds the module compares against. -/
inductive JsNum where
  | finite (num : Int) (den : Nat)
  | posInf
  | negInf

/-- The coercing comparison `v < n` of a JS number against an integer. -/
def JsNum.ltInt : JsNum → Int → Bool
  | .finite num den, n => decide (num < n * (den : Int))
  | .posInf, _ => false
  | .negInf, _ => true

/-- The coercing comparison `v >= n` of a JS number against an integer. -/
def JsNum.geInt : JsNum → Int → Bool
  | .finite num den, n => decide (n * (den : Int) ≤ num)
  | .posInf, _ => true
  | .negInf, _ => false

/-- The white-space characters trimmed by the JS string-to-number coercion
(WhiteSpace and LineTerminator code points). -/
def isJsWhitespace (c : Char) : Bool :=
  c == ' ' || c == '\t' || c == '\n' || c == '\r' ||
  c.toNat == 11 || c.toNat == 12 || c.toNat == 160 || c.toNat == 5760 ||
  (8192 ≤ c.toNat && c.toNat ≤ 8202) || c.toNat == 8232 || c.toNat == 8233 ||
  c.toNat == 8239 || c.toNat == 8287 || c.toNat == 12288 || c.toNat == 65279

/-- The value of a decimal digit. -/
def decDigit? (c : Char) : Option Nat :=
  if c.isDigit then some (c.toNat - 48) else none

/-- The value of a hexadecimal digit. -/
def hexDigit? (c : Char) : Option Nat :=
  if c.isDigit then some (c.toNat - 48)
  else if 'a' ≤ c && c ≤ 'f' then some (c.toNat - 87)
  else if 'A' ≤ c && c ≤ 'F' then some (c.toNat - 55)
  else none

/-- The value of an octal digit. -/
def octDigit? (c : Char) : Option Nat :=
  if '0' ≤ c && c ≤ '7' then some (c.toNat - 48) else none

/-- The value of a binary digit. -/
def binDigit? (c : Char) : Option Nat :=
  if c == '0' then some 0 else if c == '1' then some 1 else none

/-- Reads a digit sequence in the given radix; fails on any other char. -/
def parseRadixDigits (digit? : Char → Option Nat) (radix : Nat) :
    List Char → Nat → Option Nat
  | [], acc => some acc
  | c :: rest, acc =>
    match digit? c with
    | some d => parseRadixDigits digit? radix rest (radix * acc + d)
    | none => none

/-- Reads a non-empty digit sequence in the given radix. -/
def parseRadix (digit? : Char → Option Nat) (radix : Nat) (cs : List Char) : Option Nat :=
  if cs.isEmpty then none else parseRadixDigits digit? radix cs 0

/-- The exact value `sign * mantissa * 10 ^ (exp - fracLen)` of a decimal
literal, as an integer fraction. -/
def decToJsNum (sign : Int) (mantissa : Nat) (fracLen : Nat) (exp : Int) : JsNum :=
  let e : Int := exp - (fracLen : Int)
  if 0 ≤ e then .finite (sign * (mantissa : Int) * (10 : Int) ^ e.toNat) 1
  else .finite (sign * (mantissa : Int)) ((10 : Nat) ^ (-e).toNat)

/-- An optionally signed decimal-digit sequence (an exponent part). -/
def parseSignedDigits : List Char → Option Int
  | '+' :: rest => (parseRadix decDigit? 10 rest).map (fun n => (n : Int))
  | '-' :: rest => (parseRadix decDigit? 10 rest).map (fun n => -(n : Int))
  | cs => (parseRadix decDigit? 10 cs).map (fun n => (n : Int))

/-- A JS `StrUnsignedDecimalLiteral`: `Infinity`, or decimal digits with an
optional fraction and exponent (at least one digit required). -/
def parseUnsignedDecimal (sign : Int) (cs : List Char) : Option JsNum :=
  if cs = "Infinity".data then some (if 0 ≤ sign then .posInf else .negInf)
  else
    let mantPart := cs.takeWhile (fun c => !(c == 'e' || c == 'E'))
    let expPart := cs.dropWhile (fun c => !(c == 'e' || c == 'E'))
    let expVal? : Option Int :=
      match expPart with
      | [] => some 0
      | _ :: rest => parseSignedDigits rest
    match expVal? with
    | none => none
    | some expVal =>
      let ipart := mantPart.takeWhile (fun c => !(c == '.'))
      let dotFrac := mantPart.dropWhile (fun c => !(c == '.'))
      let frac : List Char :=
        match dotFrac with
        | [] => []
        | _ :: rest => rest
      if frac.any (fun c => c == '.') then none
      else if ipart.isEmpty && frac.isEmpty then none
      else
        match parseRadixDigits decDigit? 10 (ipart ++ frac) 0 with
        | none => none
        | some m => some (decToJsNum sign m frac.length expVal)

/-- A JS `StrDecimalLiteral`: an optional sign then an unsigned decimal
literal (non-decimal radix forms take no sign). -/
def parseDecimalChars : List Char → Option JsNum
  | '+' :: rest => parseUnsignedDecimal 1 rest
  | '-' :: rest => parseUnsignedDecimal (-1) rest
  | cs => parseUnsignedDecimal 1 cs

/-- JS `ToNumber` on a string (`StringNumericLiteral`): trimmed whitespace,
then the empty string is 0, a `0x`/`0o`/`0b` form is a radix integer, and
anything else is a signed decimal literal; `none` is `NaN`. -/
def jsStrToNumber (s : String) : Option JsNum :=
  let cs := ((s.data.dropWhile isJsWhitespace).reverse.dropWhile isJsWhitespace).reverse
  match cs with
  | [] => some (.finite 0 1)
  | '0' :: x :: rest =>
    if x == 'x' || x == 'X' then (parseRadix hexDigit? 16 rest).map (fun n => .finite (n : Int) 1)
    else if x == 'o' || x == 'O' then (parseRadix octDigit? 8 rest).map (fun n => .finite (n : Int) 1)
    else if x == 'b' || x == 'B' then (parseRadix binDigit? 2 rest).map (fun n => .finite (n : Int) 1)
    else parseDecimalChars cs
  | _ => parseDecimalChars cs

mutual

/-- JS `ToString` of a parsed-JSON value, as used for property keys and by
`ToPrimitive`: arrays join their elements with commas, plain objects print as
`[object Object]`. -/
def jsToPropertyKey : JsonValue → String
  | .nullV => "null"
  | .boolV b => cond b "true" "false"
  | .num n => toString n
  | .str s => s
  | .arr l => jsJoinElems l
  | .obj _ => "[object Object]"

/-- `Array.prototype.join` with the default comma separator. -/
def jsJoinElems : List JsonValue → String
  | [] => ""
  | [e] => jsElemStr e
  | e :: rest => jsElemStr e ++ "," ++ jsJoinElems rest

/-- An element as printed by `join`: like `ToString`, except `null` prints as
the empty string. -/
def jsElemStr : JsonValue → String
  | .nullV => ""
  | .boolV b => cond b "true" "false"
  | .num n => toString n
  | .str s => s
  | .arr l => jsJoinElems l
  | .obj _ => "[object Object]"

end

/-- JS `ToNumber` of a parsed-JSON value: `null` is 0, booleans are 0/1,
strings parse as numeric literals, arrays go through `ToPrimitive` (the
comma-join) and then the string coercion, and plain objects stringify to
`[object Object]` and hence `NaN`; `none` is `NaN`. -/
def jsToNumber : JsonValue → Option JsNum
  | .nullV => some (.finite 0 1)
  | .boolV b => some (.finite (cond b 1 0) 1)
  | .num n => some (.finite n 1)
  | .str s => jsStrToNumber s
  | .arr l => jsStrToNumber (jsJoinElems l)
  | .obj _ => jsStrToNumber "[object Object]"

/-- JS truthiness of a parsed-JSON value. -/
def jsTruthy : JsonValue → Bool
  | .nullV => false
  | .boolV b => b
  | .num n => n != 0
  | .str s => s != ""
  | .arr _ => true
  | .obj _ => true

/-- The constructor's `init.status ?? 500`: an absent or `null` status
resolves to 500, any other raw value is kept as is. -/
def resolveStatus (raw : Option JsonValue) : JsonValue :=
  match raw with
  | none => .num 500
  | some .nullV => .num 500
  | some v => v

/-- The constructor's coercing range check `status < 400 || status >= 600`
on a raw status value (false when the value coerces to `NaN`). -/
def statusOutOfRange (v : JsonValue) : Bool :=
  match jsToNumber v with
  | some x => x.ltInt 400 || x.geInt 600
  | none => false

/-- Reading a string-typed problem-details field (`title`, `detail`, `type`,
`instance`); non-string values in these positions never influence whether
construction throws. -/
def jsonFieldStr (o : JsonObj) (k : String) : Option String :=
  match JsonObj.get o k with
  | some (.str s) => some s
  | _ => none

/-- The reserved problem-details keys split off by destructuring. -/
def problemDetailsKeys : List String := ["status", "title", "detail", "type", "instance"]

/-- The options record (apart from `status`) built from a problem-details
object by both reconstruction branches of `from`: `title → name`,
`detail → message`, the rest of the keys become `extensions`. -/
def payloadOptions (o : JsonObj) : HttpErrorOptions :=
  { name? := jsonFieldStr o "title"
    message? := jsonFieldStr o "detail"
    type? := jsonFieldStr o "type"
    instance? := jsonFieldStr o "instance"
    extensions? := some (JsonObj.removeKeys o problemDetailsKeys) }

/-- A reason-phrase or default-message table lookup by a raw status value:
JS property access stringifies the key, so a string such as `"404"` hits the
same row as the number 404. -/
def statusKeyLookup (table : List (Int × String)) (key : String) : Option String :=
  (table.find? (fun p => toString p.1 == key)).map (·.2)

/-- An `HttpError` object whose `status` field holds a raw non-integer value
(a string, array, or object that survived the coercing range check): the
same fields as `HttpErrorData`, with the raw status. -/
structure DynHttpErrorData where
  status : JsonValue
  name : String
  message : String
  statusText? : Option String
  expose : Bool
  cause? : Option CauseV
  type? : Option String
  instance? : Option String
  extensions : JsonObj
  headers : Headers
  exposedMessage : String

/-- The constructor's field initialization when the stored status is a raw
non-integer value: the reason-phrase and default-message lookups go through
property-key stringification, and the `status < 500` tests coerce the value
(false for `NaN`). -/
def initFieldsDynamic (status : JsonValue) (init : HttpErrorOptions) : DynHttpErrorData :=
  let key := jsToPropertyKey status
  let lt500 := match jsToNumber status with
    | some x => x.ltInt 500
    | none => false
  let message := init.message?.getD ""
  let name := init.name?.getD (match statusKeyLookup STATUS_TEXT key with
    | some t => t
    | none => if lt500 then "Unknown Client Error" else "Unknown Server Error")
  let expose := init.expose?.getD lt500
  let headers := resolveHeaders init.headers?
  let defaultMsg := match statusKeyLookup DEFAULT_EXPOSED_MESSAGES key with
    | some m => m
    | none => if lt500 then "A client error occurred." else "A server error occurred."
  let exposedMessage := init.exposedMessage?.getD
    (if expose && !(message == "") then message else defaultMsg)
  { status := status
    name := name
    message := message
    statusText? := truthyOpt init.statusText?
    expose := expose
    cause? := init.cause?
    type? := truthyOpt init.type?
    instance? := truthyOpt init.instance?
    extensions := init.extensions?.getD []
    headers := headers
    exposedMessage := exposedMessage }

/-- The outcome of a constructor call whose `status` option holds an
arbitrary raw value. -/
inductive ConstructResult where
  | thrownErr (message : String)
  | okTyped (h : HttpErrorData)
  | okUntyped (d : DynHttpErrorData)

/-- The `HttpError` constructor as invoked by the payload branches of `from`,
where the destructured `status` is an arbitrary JSON value: `status ?? 500`
resolves `undefined`/`null` to 500, the coercing range check
`status < 400 || status >= 600` throws (booleans always coerce out of range,
strings parse as numeric literals, `NaN` coercions never throw), and the raw
value is then stored in the constructed object, which falls outside the
integer-status model when the value is not a number. -/
def constructWithRawStatus (raw : Option JsonValue) (init : HttpErrorOptions) :
    ConstructResult :=
  let status := resolveStatus raw
  if statusOutOfRange status = true then .thrownErr "invalid error status"
  else match status with
    | .num n => .okTyped (HttpError.initFields { init with status? := some n })
    | v => .okUntyped (initFieldsDynamic v init)

/-- The raw status used by the response branch: `status || error.status`
(the payload's own status value wins whenever it is truthy, otherwise the
transport status is used). -/
def respRawStatus (o : JsonObj) (transportStatus : Int) : Option JsonValue :=
  match JsonObj.get o "status" with
  | some v => some (if jsTruthy v then v else .num transportStatus)
  | none => some (.num transportStatus)

/-- The `HttpError` a `Response` promise resolves to: either one inside the
integer-status model, or one carrying a raw non-integer status. -/
inductive ResolvedError where
  | typed (h : HttpErrorData)
  | untyped (d : DynHttpErrorData)

/-- The value a `Response` passed to `from` resolves to.  The source chains
`error.json().then(...).catch(...)`, so the `catch` handler absorbs both body
parse failures and any error thrown inside the `then` callback (including the
constructor range error); its own constructor call uses status 500 and
therefore cannot throw, so the promise always resolves. -/
def fromResponse (r : ResponseData) : ResolvedError :=
  match r.body with
  | .error _ =>
    .typed (HttpError.new500 "could not parse problem details response" .parseError)
  | .ok json =>
    if isProblemDetailsJson json then
      match json with
      | .obj o =>
        match constructWithRawStatus (respRawStatus o r.status) (payloadOptions o) with
        | .okTyped h => .typed h
        | .okUntyped d => .untyped d
        | .thrownErr m =>
          .typed (HttpError.new500 "could not parse problem details response" (.rangeError m))
      | _ => .typed (HttpError.new500 "invalid problem details response" (.jsonV json))
    else .typed (HttpError.new500 "invalid problem details response" (.jsonV json))

/-- The outcome of a call to `HttpError.from`: a synchronously returned
`HttpError` (typed, or carrying a raw non-integer status), a promise
resolving to one, or a synchronously thrown error. -/
inductive FromResult where
  | ok (h : HttpErrorData)
  | okUntyped (d : DynHttpErrorData)
  | promise (r : ResolvedError)
  | thrown (message : String)

/-- The options record the error-like branch of `from` builds from the
destructured fields of an error-like value (the legacy-format name is
replaced by `undefined` so the constructor rederives it). -/
def optionsFromErrorLike (e : ErrorData) (status : Int) : HttpErrorOptions :=
  { name? := if matchesOldNameFormat (some e.name) status then none else some e.name
    message? := some e.message
    status? := some status
    expose? := e.expose?
    cause? := e.cause?
    type? := e.type?
    instance? := e.instance?
    extensions? := e.extensions?
    exposedMessage? := e.exposedMessage?
    headers? := e.headers? }

def HttpError.«from» (error : JsValue) : FromResult :=
  match error with
  | .httpErrV h => .ok h
  | .errV e =>
    match e.status? with
    | some status =>
      match HttpError.construct (optionsFromErrorLike e status) with
      | .ok h => .ok h
      | .error m => .thrown m
    | none => .ok (HttpError.new500 e.message (causeOfJs error))
  | .respV r => .promise (fromResponse r)
  | .obj o =>
    if isProblemDetailsJson (.obj o) then
      match constructWithRawStatus (JsonObj.get o "status") (payloadOptions o) with
      | .okTyped h => .ok h
      | .okUntyped d => .okUntyped d
      | .thrownErr m => .thrown m
    else .ok (HttpError.new500 "unexpected error type" (causeOfJs (.obj o)))
  | v => .ok (HttpError.new500 "unexpected error type" (causeOfJs v))

/-- `toJSON` from the source: `{...extensions, status, title, detail}`, plus
`type`/`instance` when those fields are set (set fields are never empty). -/
def HttpError.toJSON (h : HttpErrorData) : JsonObj :=
  let json := JsonObj.setKey
    (JsonObj.setKey
      (JsonObj.setKey h.extensions "status" (.num h.status))
      "title" (.str h.name))
    "detail" (.str h.exposedMessage)
  let json := match h.type? with
    | some t => if t == "" then json else JsonObj.setKey json "type" (.str t)
    | none => json
  match h.instance? with
  | some i => if i == "" then json else JsonObj.setKey json "instance" (.str i)
  | none => json

/-- The options merge performed by the class returned from
`createHttpErrorClass`: each field of the call-time options wins over the
class defaults when defined, and `extensions` is the spread
`{...defaults.extensions, ...callTime.extensions}`. -/
def mergeClassOptions (dfo : Option HttpErrorOptions) (ctorOpts : HttpErrorOptions) :
    HttpErrorOptions :=
  let dget : {α : Type} → (HttpErrorOptions → Option α) → Option α := fun f => dfo.bind f
  { status? := ctorOpts.status?.or (dget (·.status?))
    message? := ctorOpts.message?.or (dget (·.message?))
    name? := ctorOpts.name?.or (dget (·.name?))
    expose? := ctorOpts.expose?.or (dget (·.expose?))
    cause? := ctorOpts.cause?.or (dget (·.cause?))
    type? := ctorOpts.type?.or (dget (·.type?))
    instance? := ctorOpts.instance?.or (dget (·.instance?))
    headers? := ctorOpts.headers?.or (dget (·.headers?))
    statusText? := ctorOpts.statusText?.or (dget (·.statusText?))
    exposedMessage? := ctorOpts.exposedMessage?.or (dget (·.exposedMessage?))
    extensions? := some (JsonObj.spread
      ((dget (·.extensions?)).getD [])
      (ctorOpts.extensions?.getD [])) }

/-- Instantiating the class produced by `createHttpErrorClass defaults` with
the overloaded argument list. -/
def createHttpErrorClassNew (defaults : Option HttpErrorOptions)
    (a b : Option ArgVal) (o : Option HttpErrorOptions) : Except String HttpErrorData :=
  HttpError.construct (mergeClassOptions defaults (optionsFromArgs a b o))

/-- The synchronously returned `HttpError` of a `from` outcome, if any. -/
def FromResult.getOk : FromResult → Option HttpErrorData
  | .ok h => some h
  | _ => none

/-- The inputs on which `HttpError.from` lets the constructor range error
escape: a value reaching a reconstruction branch whose resolved status
coerces outside `[400, 599]` — an error-like value with such a numeric
status, or a payload-shaped plain object whose raw status value fails the
coercing range check (a `Response` never, since its `catch` handler absorbs
the error). -/
def fromThrows : JsValue → Prop
  | .errV e =>
    match e.status? with
    | some n => n < 400 ∨ 600 ≤ n
    | none => False
  | .obj o =>
    isProblemDetailsJson (.obj o) = true ∧
      statusOutOfRange (resolveStatus (JsonObj.get o "status")) = true
  | _ => False

/-- The inputs taking the final catch-all branch of `from`: not an
`HttpError`, not error-like, not an `Error`, not a `Response`, and not
payload-shaped. -/
def isUnrecognized : JsValue → Bool
  | .obj o => !(isProblemDetailsJson (.obj o))
  | .errV _ => false
  | .httpErrV _ => false
  | .respV _ => false
  | _ => true

/-! Helper lemmas about object lookup, spread, and destructuring. -/

theorem JsonObj.get_cons_eq {p : String × JsonValue} {rest : JsonObj} {k : String}
    (h : p.1 = k) : JsonObj.get (p :: rest) k = some p.2 := by
  simp [JsonObj.get, h]

theorem JsonObj.get_cons_ne {p : String × JsonValue} {rest : JsonObj} {k : String}
    (h : ¬ p.1 = k) : JsonObj.get (p :: rest) k = JsonObj.get rest k := by
  simp [JsonObj.get, h]

theorem JsonObj.setKey_cons_eq {p : String × JsonValue} {rest : JsonObj} {k : String}
    {v : JsonValue} (h : p.1 = k) : JsonObj.setKey (p :: rest) k v = (k, v) :: rest := by
  simp [JsonObj.setKey, h]

theorem JsonObj.setKey_cons_ne {p : String × JsonValue} {rest : JsonObj} {k : String}
    {v : JsonValue} (h : ¬ p.1 = k) :
    JsonObj.setKey (p :: rest) k v = p :: JsonObj.setKey rest k v := by
  simp [JsonObj.setKey, h]

theorem JsonObj.get_setKey (o : JsonObj) (k : String) (v : JsonValue) (k' : String) :
    JsonObj.get (JsonObj.setKey o k v) k' = if k' = k then some v else JsonObj.get o k' := by
  induction o with
  | nil =>
    by_cases h : k' = k
    · subst h
      rw [if_pos rfl]
      exact JsonObj.get_cons_eq rfl
    · have hne : ¬((k, v).1 = k') := fun hh => h hh.symm
      rw [if_neg h]
      exact JsonObj.get_cons_ne hne
  | cons p rest ih =>
    by_cases hpk : p.1 = k
    · rw [JsonObj.setKey_cons_eq hpk]
      by_cases h : k' = k
      · subst h
        rw [if_pos rfl]
        exact JsonObj.get_cons_eq rfl
      · have hne1 : ¬((k, v).1 = k') := fun hh => h hh.symm
        have hne2 : ¬(p.1 = k') := hpk ▸ fun hh => h hh.symm
        rw [if_neg h, JsonObj.get_cons_ne hne1, JsonObj.get_cons_ne hne2]
    · rw [JsonObj.setKey_cons_ne hpk]
      by_cases hpk' : p.1 = k'
      · have hk : ¬(k' = k) := fun hh => hpk (hpk'.trans hh)
        rw [if_neg hk, JsonObj.get_cons_eq hpk', JsonObj.get_cons_eq hpk']
      · rw [JsonObj.get_cons_ne hpk', JsonObj.get_cons_ne hpk', ih]

theorem JsonObj.get_eq_none (o : JsonObj) (k : String) (h : k ∉ o.map Prod.fst) :
    JsonObj.get o k = none := by
  induction o with
  | nil => rfl
  | cons p rest ih =>
    simp only [List.map_cons, List.mem_cons, not_or] at h
    have hne : ¬(p.1 = k) := fun hh => h.1 hh.symm
    rw [JsonObj.get_cons_ne hne]
    exact ih h.2

theorem JsonObj.hasKey_eq_isSome (o : JsonObj) (k : String) :
    JsonObj.hasKey o k = (JsonObj.get o k).isSome := by
  induction o with
  | nil => rfl
  | cons p rest ih =>
    by_cases h : p.1 = k
    · simp [JsonObj.hasKey, JsonObj.get, List.any_cons, h]
    · rw [JsonObj.get_cons_ne h]
      show ((p.1 == k) || JsonObj.hasKey rest k) = (JsonObj.get rest k).isSome
      simp [h, ih]

theorem JsonObj.removeKeys_setKey_mem (o : JsonObj) (k : String) (v : JsonValue)
    (ks : List String) (h : k ∈ ks) :
    JsonObj.removeKeys (JsonObj.setKey o k v) ks = JsonObj.removeKeys o ks := by
  induction o with
  | nil =>
    show JsonObj.removeKeys [(k, v)] ks = JsonObj.removeKeys [] ks
    simp [JsonObj.removeKeys, List.filter_cons, h]
  | cons p rest ih =>
    by_cases hpk : p.1 = k
    · rw [JsonObj.setKey_cons_eq hpk]
      have hp : p.1 ∈ ks := hpk ▸ h
      simp [JsonObj.removeKeys, List.filter_cons, h, hp]
    · rw [JsonObj.setKey_cons_ne hpk]
      simp only [JsonObj.removeKeys] at ih ⊢
      rw [List.filter_cons, List.filter_cons, ih]

theorem JsonObj.removeKeys_eq_self (o : JsonObj) (ks : List String)
    (h : ∀ p ∈ o, p.1 ∉ ks) : JsonObj.removeKeys o ks = o := by
  induction o with
  | nil => rfl
  | cons p rest ih =>
    have hp := h p (by simp)
    have hrest := ih fun q hq => h q (List.mem_cons_of_mem p hq)
    simp only [JsonObj.removeKeys] at hrest ⊢
    rw [List.filter_cons, if_pos (by simp [hp]), hrest]

theorem JsonObj.get_spread (a b : JsonObj) (k : String)
    (hb : (b.map Prod.fst).Nodup) :
    JsonObj.get (JsonObj.spread a b) k = (JsonObj.get b k).or (JsonObj.get a k) := by
  induction b generalizing a with
  | nil => simp [JsonObj.spread, JsonObj.get, Option.or]
  | cons p rest ih =>
    rw [show JsonObj.spread a (p :: rest) = JsonObj.spread (JsonObj.setKey a p.1 p.2) rest from rfl]
    simp only [List.map_cons, List.nodup_cons] at hb
    rw [ih _ hb.2]
    by_cases hk : k = p.1
    · rw [JsonObj.get_setKey, if_pos hk, JsonObj.get_eq_none rest k (hk.symm ▸ hb.1),
        JsonObj.get_cons_eq hk.symm]
      simp [Option.or]
    · have hpk : ¬(p.1 = k) := fun hh => hk hh.symm
      rw [JsonObj.get_setKey, if_neg hk, JsonObj.get_cons_ne hpk]

/-! Helper lemmas about the constructor and argument resolution. -/

theorem truthyOpt_ne_some_empty (o : Option String) : truthyOpt o ≠ some "" := by
  cases o with
  | none => simp [truthyOpt]
  | some s => by_cases h : s = "" <;> simp [truthyOpt, h]

theorem truthyOpt_some_of_ne {t : String} (h : ¬ t = "") : truthyOpt (some t) = some t := by
  simp [truthyOpt, h]

theorem HttpError.construct_ok_of (init : HttpErrorOptions)
    (h1 : 400 ≤ init.status?.getD 500) (h2 : init.status?.getD 500 < 600) :
    HttpError.construct init = .ok (HttpError.initFields init) := by
  unfold HttpError.construct
  rw [if_neg (by omega)]

theorem HttpError.construct_error_of (init : HttpErrorOptions)
    (h : init.status?.getD 500 < 400 ∨ 600 ≤ init.status?.getD 500) :
    HttpError.construct init = .error "invalid error status" := by
  unfold HttpError.construct
  rw [if_pos h]

theorem HttpError.construct_ok_inv {init : HttpErrorOptions} {h : HttpErrorData}
    (hc : HttpError.construct init = .ok h) :
    h = HttpError.initFields init ∧ 400 ≤ init.status?.getD 500 ∧
      init.status?.getD 500 < 600 := by
  unfold HttpError.construct at hc
  by_cases hr : init.status?.getD 500 < 400 ∨ 600 ≤ init.status?.getD 500
  · rw [if_pos hr] at hc
    exact absurd hc (by simp)
  · rw [if_neg hr] at hc
    push_neg at hr
    exact ⟨by injection hc with h'; exact h'.symm, hr.1, by omega⟩

theorem HttpError.initFields_status (init : HttpErrorOptions) :
    (HttpError.initFields init).status = init.status?.getD 500 := rfl

theorem optionsFromArgs_shape1 (n : Int) (s : String) (o : HttpErrorOptions) :
    optionsFromArgs (some (.num n)) (some (.str s)) (some o) =
      { o with status? := some n, message? := some s } := rfl

theorem optionsFromArgs_shape2 (n : Int) (o : HttpErrorOptions) :
    optionsFromArgs (some (.num n)) (some (.opts o)) none =
      { o with status? := some n } := rfl

theorem optionsFromArgs_shape3 (s : String) (o : HttpErrorOptions) :
    optionsFromArgs (some (.str s)) (some (.opts o)) none =
      { o with message? := some s } := rfl

theorem optionsFromArgs_shape4 (o : HttpErrorOptions) :
    optionsFromArgs (some (.opts o)) none none = o := rfl

theorem optionsFromArgs_num_only (n : Int) :
    optionsFromArgs (some (.num n)) none none = { status? := some n } := rfl

theorem JsonObj.get_ite (c : Prop) [Decidable c] (a b : JsonObj) (k : String) :
    JsonObj.get (if c then a else b) k =
      if c then JsonObj.get a k else JsonObj.get b k :=
  (apply_ite (fun o => JsonObj.get o k) c a b)

/-! Claim theorems. -/

/-- C3: Constructor status validation.  For every fully-resolved options
record whose final status (the explicit `status` option, or the default 500)
is `s`: if `s < 400` or `s ≥ 600` the constructor fails with the
`RangeError("invalid error status")` and no object is constructed (the status
is never silently clamped); if `400 ≤ s < 600` construction succeeds and the
constructed error carries exactly status `s`. -/
theorem constructor_status_validation (init : HttpErrorOptions) (s : Int)
    (hs : init.status?.getD 500 = s) :
    ((s < 400 ∨ 600 ≤ s) → HttpError.construct init = .error "invalid error status") ∧
    (400 ≤ s → s < 600 → ∃ h, HttpError.construct init = .ok h ∧ h.status = s) := by
  subst hs
  refine ⟨fun h => HttpError.construct_error_of init h, fun h1 h2 => ?_⟩
  exact ⟨_, HttpError.construct_ok_of init h1 h2, HttpError.initFields_status init⟩

theorem constructor_status_validation_witness :
    (HttpError.construct { status? := some 600 } = .error "invalid error status") ∧
    (∃ h, HttpError.construct { status? := some 404 } = .ok h ∧ h.status = 404) :=
  ⟨(constructor_status_validation { status? := some 600 } 600 rfl).1 (by decide),
   (constructor_status_validation { status? := some 404 } 404 rfl).2 (by decide) (by decide)⟩

/-- C4: Argument-resolution precedence.  In each of the four constructor call
shapes, a positional `status` or `message` argument overrides the same field
of a trailing options record, and all other fields are taken from that
record; in particular `new HttpError(400, "m1", {status: 502, message: "m2"})`
yields status 400 and message `"m1"`. -/
theorem optionsFromArgs_positional_precedence :
    (∀ (n : Int) (s : String) (o : HttpErrorOptions),
      optionsFromArgs (some (.num n)) (some (.str s)) (some o) =
        { o with status? := some n, message? := some s }) ∧
    (∀ (n : Int) (o : HttpErrorOptions),
      optionsFromArgs (some (.num n)) (some (.opts o)) none =
        { o with status? := some n }) ∧
    (∀ (s : String) (o : HttpErrorOptions),
      optionsFromArgs (some (.str s)) (some (.opts o)) none =
        { o with message? := some s }) ∧
    (∀ o : HttpErrorOptions, optionsFromArgs (some (.opts o)) none none = o) ∧
    ((HttpError.new (some (.num 400)) (some (.str "m1"))
        (some { status? := some 502, message? := some "m2" })).map
          (fun h => (h.status, h.message)) = .ok (400, "m1")) :=
  ⟨optionsFromArgs_shape1, optionsFromArgs_shape2, optionsFromArgs_shape3,
    optionsFromArgs_shape4, rfl⟩

/-- C10: Implicit default status.  Constructing with neither a positional
status argument nor a `status` option does not fail: the status defaults to
500 and the error has name `"Internal Server Error"` and `expose = false`,
even though every explicitly supplied status outside `[400, 599]` is
rejected. -/
theorem default_status_is_500 :
    (HttpError.new none none none =
      .ok { name := "Internal Server Error", message := "", status := 500,
            statusText? := none, expose := false, cause? := none, type? := none,
            instance? := none, extensions := [],
            headers := ⟨[("content-type", "application/problem+json")]⟩,
            exposedMessage := "The server encountered an unexpected condition." }) ∧
    (∀ s : Int, s < 400 ∨ 600 ≤ s →
      HttpError.new (some (.num s)) none none = .error "invalid error status") := by
  refine ⟨rfl, fun s hs => ?_⟩
  show HttpError.construct (optionsFromArgs (some (.num s)) none none) = _
  rw [optionsFromArgs_num_only]
  exact HttpError.construct_error_of _ (by simpa using hs)

theorem default_status_is_500_witness :
    HttpError.new (some (.num 39)) none none = .error "invalid error status" :=
  default_status_is_500.2 39 (by decide)

/-- C8: Identity and idempotence of `from`.  An `HttpError` input is returned
unchanged, and consequently whenever `from x` returns an `HttpError`
synchronously, applying `from` again to that result returns it unchanged
(`from (from x) = from x`). -/
theorem from_identity_idempotent :
    (∀ h : HttpErrorData, HttpError.«from» (.httpErrV h) = .ok h) ∧
    (∀ (x : JsValue) (h : HttpErrorData),
      HttpError.«from» x = .ok h → HttpError.«from» (.httpErrV h) = .ok h) :=
  ⟨fun _ => rfl, fun _ _ _ => rfl⟩

theorem from_identity_idempotent_witness :
    HttpError.«from» (.httpErrV (HttpError.new500 "unexpected error type" (.str "x"))) =
      .ok (HttpError.new500 "unexpected error type" (.str "x")) :=
  from_identity_idempotent.2 (.str "x") (HttpError.new500 "unexpected error type" (.str "x")) rfl

/-- C5: Derived exposure fields.  On every successful construction, `expose`
defaults to `status < 500` when not explicitly given; `exposedMessage` is the
explicit `exposedMessage` option when provided, else the message when
`expose` is true and the message is non-empty, else the per-status safe
default text, which itself falls back to the generic client/server phrases
for unmapped codes; in particular
`new HttpError(500, "sql blew up").exposedMessage` is the safe 500 text. -/
theorem derived_exposure_fields :
    (∀ (init : HttpErrorOptions) (h : HttpErrorData), HttpError.construct init = .ok h →
      (init.expose? = none → h.expose = decide (h.status < 500)) ∧
      (∀ em, init.exposedMessage? = some em → h.exposedMessage = em) ∧
      (init.exposedMessage? = none →
        h.exposedMessage =
          (if h.expose && !(h.message == "") then h.message
           else defaultExposedMessageForStatus h.status))) ∧
    (∀ s : Int, DEFAULT_EXPOSED_MESSAGES.find? (fun p => p.1 == s) = none →
      defaultExposedMessageForStatus s =
        (if s < 500 then "A client error occurred." else "A server error occurred.")) ∧
    ((HttpError.new (some (.num 500)) (some (.str "sql blew up")) none).map
        (fun h => h.exposedMessage) =
      .ok "The server encountered an unexpected condition.") := by
  refine ⟨fun init h hc => ?_, fun s hs => ?_, rfl⟩
  · obtain ⟨hinit, -, -⟩ := HttpError.construct_ok_inv hc
    subst hinit
    refine ⟨fun hexp => ?_, fun em hem => ?_, fun hnone => ?_⟩
    · simp [HttpError.initFields, hexp]
    · simp [HttpError.initFields, hem]
    · simp [HttpError.initFields, hnone]
  · simp [defaultExposedMessageForStatus, hs]

theorem derived_exposure_fields_witness :
    ((HttpError.initFields { status? := some 404, message? := some "x" }).expose =
      decide ((HttpError.initFields { status? := some 404, message? := some "x" }).status < 500)) ∧
    defaultExposedMessageForStatus 569 = "A server error occurred." :=
  ⟨(derived_exposure_fields.1 { status? := some 404, message? := some "x" }
      (HttpError.initFields { status? := some 404, message? := some "x" }) rfl).1 rfl,
   (derived_exposure_fields.2.1 569 rfl).trans (if_neg (by decide))⟩

/-- C6: `toJSON` postcondition.  The emitted object carries
`status = e.status`, `title = e.name`, and `detail = e.exposedMessage` — the
fixed fields are written after the extensions are spread, so they win even
when `extensions` contains keys named `status`, `title`, or `detail`, and the
emitted `detail` is always the safe `exposedMessage`, never the raw internal
`message`; `type` and `instance` are added exactly when those fields are set,
and every other key is taken from `extensions` unchanged. -/
theorem toJSON_postcondition (h : HttpErrorData) :
    JsonObj.get (HttpError.toJSON h) "status" = some (.num h.status) ∧
    JsonObj.get (HttpError.toJSON h) "title" = some (.str h.name) ∧
    JsonObj.get (HttpError.toJSON h) "detail" = some (.str h.exposedMessage) ∧
    (∀ t, h.type? = some t → ¬ t = "" →
      JsonObj.get (HttpError.toJSON h) "type" = some (.str t)) ∧
    (h.type? = none →
      JsonObj.get (HttpError.toJSON h) "type" = JsonObj.get h.extensions "type") ∧
    (∀ i, h.instance? = some i → ¬ i = "" →
      JsonObj.get (HttpError.toJSON h) "instance" = some (.str i)) ∧
    (h.instance? = none →
      JsonObj.get (HttpError.toJSON h) "instance" =
        JsonObj.get h.extensions "instance") ∧
    (∀ k, ¬ k ∈ problemDetailsKeys →
      JsonObj.get (HttpError.toJSON h) k = JsonObj.get h.extensions k) := by
  refine ⟨?_, ?_, ?_, ?_, ?_, ?_, ?_, ?_⟩
  · simp only [HttpError.toJSON]
    rcases h.type? with _ | t <;> rcases h.instance? with _ | i <;>
      simp [JsonObj.get_ite, JsonObj.get_setKey]
  · simp only [HttpError.toJSON]
    rcases h.type? with _ | t <;> rcases h.instance? with _ | i <;>
      simp [JsonObj.get_ite, JsonObj.get_setKey]
  · simp only [HttpError.toJSON]
    rcases h.type? with _ | t <;> rcases h.instance? with _ | i <;>
      simp [JsonObj.get_ite, JsonObj.get_setKey]
  · intro t hty htne
    simp only [HttpError.toJSON, hty]
    rcases h.instance? with _ | i <;>
      simp [JsonObj.get_ite, JsonObj.get_setKey, htne]
  · intro hty
    simp only [HttpError.toJSON, hty]
    rcases h.instance? with _ | i <;>
      simp [JsonObj.get_ite, JsonObj.get_setKey]
  · intro i hin hine
    simp only [HttpError.toJSON, hin]
    rcases h.type? with _ | t <;>
      simp [JsonObj.get_ite, JsonObj.get_setKey, hine]
  · intro hin
    simp only [HttpError.toJSON, hin]
    rcases h.type? with _ | t <;>
      simp [JsonObj.get_ite, JsonObj.get_setKey]
  · intro k hk
    simp only [problemDetailsKeys, List.mem_cons, List.not_mem_nil, or_false,
      not_or] at hk
    obtain ⟨h1, h2, h3, h4, h5⟩ := hk
    simp only [HttpError.toJSON]
    rcases h.type? with _ | t <;> rcases h.instance? with _ | i <;>
      simp [JsonObj.get_ite, JsonObj.get_setKey, h1, h2, h3, h4, h5]

theorem toJSON_postcondition_witness :
    JsonObj.get
      (HttpError.toJSON
        (HttpError.initFields
          { status? := some 403, message? := some "secret",
            exposedMessage? := some "Access denied",
            extensions? := some [("detail", .str "shadowed"), ("accountId", .str "user-abc")] }))
      "detail" = some (.str "Access denied") ∧
    JsonObj.get
      (HttpError.toJSON
        (HttpError.initFields
          { status? := some 403, message? := some "secret",
            exposedMessage? := some "Access denied",
            extensions? := some [("detail", .str "shadowed"), ("accountId", .str "user-abc")] }))
      "accountId" = some (.str "user-abc") := by
  constructor
  · exact (toJSON_postcondition _).2.2.1
  · exact (toJSON_postcondition _).2.2.2.2.2.2.2 "accountId" (by decide)

/-- C2 counterexample: at explicit concrete inputs, `from` does not behave as
the claim states for "any object with a numeric status field".  A plain
(non-`Error`) object with numeric status 404 and a `name` field is rebuilt
through the payload branch, which drops its `name` and `message`; an `Error`
carrying the legacy name `"NotFoundError"` has its name rewritten rather than
preserved; an `Error` carrying numeric status 200 makes `from` throw rather
than return an `HttpError`; and carried headers gain a `content-type` entry
rather than being preserved verbatim. -/
theorem errorLike_preservation_counterexample :
    ((HttpError.«from» (.obj [("status", .num 404), ("name", .str "Foo"),
        ("message", .str "m")])).getOk.map (fun h => (h.name, h.message)) =
      some ("Not Found", "")) ∧
    ¬ (("Not Found", "") = ("Foo", "m")) ∧
    ((HttpError.«from» (.errV { name := "NotFoundError", message := "m",
                                status? := some 404 })).getOk.map (fun h => h.name) =
      some "Not Found") ∧
    ¬ ("Not Found" = "NotFoundError") ∧
    (HttpError.«from» (.errV { name := "Error", message := "m", status? := some 200 }) =
      .thrown "invalid error status") ∧
    ((HttpError.«from» (.errV { name := "Error", message := "m", status? := some 400,
                                headers? := some (.record [("x-a", "1")]) })).getOk.map
          (fun h => h.headers.entries) =
      some [("x-a", "1"), ("content-type", "application/problem+json")]) ∧
    ¬ ([("x-a", "1"), ("content-type", "application/problem+json")] =
        [("x-a", "1")]) :=
  ⟨rfl, by decide, rfl, by decide, rfl, rfl, by decide⟩

/-- C2 (amended): for every `Error`-instance value with a numeric `status`
field in `[400, 599]` that is not an `HttpError` instance, `from` returns a
fresh `HttpError` preserving `message`, `status`, `expose`, `cause`, `type`,
`instance`, `extensions`, and `exposedMessage` (present fields are carried
over and absent ones get the constructor defaults); the `name` is preserved
unless it matches the legacy `"{StatusText}Error"` format, in which case it
is rewritten to the standard reason-phrase name; and `headers` are preserved
up to the constructor normalization that inserts a default `content-type`. -/
theorem errorLike_preservation (e : ErrorData) (n : Int)
    (hst : e.status? = some n) (h1 : 400 ≤ n) (h2 : n < 600) :
    ∃ h, HttpError.«from» (.errV e) = .ok h ∧
      h.status = n ∧
      h.message = e.message ∧
      h.name = (if matchesOldNameFormat (some e.name) n then errorNameForStatus n
                else e.name) ∧
      h.expose = e.expose?.getD (decide (n < 500)) ∧
      h.cause? = e.cause? ∧
      h.type? = truthyOpt e.type? ∧
      h.instance? = truthyOpt e.instance? ∧
      h.extensions = e.extensions?.getD [] ∧
      h.headers = resolveHeaders e.headers? ∧
      h.exposedMessage =
        e.exposedMessage?.getD
          (if e.expose?.getD (decide (n < 500)) && !(e.message == "") then e.message
           else defaultExposedMessageForStatus n) := by
  have hok := HttpError.construct_ok_of (optionsFromErrorLike e n)
    (by simpa [optionsFromErrorLike] using h1)
    (by simpa [optionsFromErrorLike] using h2)
  have hbranch : HttpError.«from» (.errV e) =
      .ok (HttpError.initFields (optionsFromErrorLike e n)) := by
    simp only [HttpError.«from», hst, hok]
  refine ⟨_, hbranch, ?_, ?_, ?_, ?_, ?_, ?_, ?_, ?_, ?_, ?_⟩
  · simp [HttpError.initFields, optionsFromErrorLike]
  · simp [HttpError.initFields, optionsFromErrorLike]
  · by_cases hm : matchesOldNameFormat (some e.name) n <;>
      simp [HttpError.initFields, optionsFromErrorLike, hm]
  · simp [HttpError.initFields, optionsFromErrorLike]
  · simp [HttpError.initFields, optionsFromErrorLike]
  · simp [HttpError.initFields, optionsFromErrorLike]
  · simp [HttpError.initFields, optionsFromErrorLike]
  · simp [HttpError.initFields, optionsFromErrorLike]
  · simp [HttpError.initFields, optionsFromErrorLike]
  · simp [HttpError.initFields, optionsFromErrorLike]

theorem errorLike_preservation_witness :
    ∃ h, HttpError.«from» (.errV { name := "CustomError", message := "boom",
                                   status? := some 503, expose? := some true,
                                   type? := some "/errors/custom",
                                   extensions? := some [("code", .str "X")] }) = .ok h ∧
      h.status = 503 ∧
      h.message = "boom" ∧
      h.name = (if matchesOldNameFormat (some "CustomError") 503 then
                  errorNameForStatus 503 else "CustomError") ∧
      h.expose = true ∧
      h.cause? = none ∧
      h.type? = truthyOpt (some "/errors/custom") ∧
      h.instance? = truthyOpt none ∧
      h.extensions = [("code", .str "X")] ∧
      h.headers = resolveHeaders none ∧
      h.exposedMessage = "boom" := by
  have w := errorLike_preservation
    { name := "CustomError", message := "boom", status? := some 503,
      expose? := some true, type? := some "/errors/custom",
      extensions? := some [("code", .str "X")] } 503 rfl (by decide) (by decide)
  simpa using w

theorem JsonObj.removeKeys_ite (c : Prop) [Decidable c] (a b : JsonObj)
    (ks : List String) :
    JsonObj.removeKeys (if c then a else b) ks =
      if c then JsonObj.removeKeys a ks else JsonObj.removeKeys b ks :=
  apply_ite (fun o => JsonObj.removeKeys o ks) c a b

theorem truthyOpt_idem (o : Option String) : truthyOpt (truthyOpt o) = truthyOpt o := by
  cases o with
  | none => rfl
  | some s => by_cases h : s = "" <;> simp [truthyOpt, h]

theorem toJSON_get_reserved (h : HttpErrorData) :
    JsonObj.get (HttpError.toJSON h) "status" = some (.num h.status) ∧
    JsonObj.get (HttpError.toJSON h) "title" = some (.str h.name) ∧
    JsonObj.get (HttpError.toJSON h) "detail" = some (.str h.exposedMessage) := by
  refine ⟨?_, ?_, ?_⟩
  all_goals
    simp only [HttpError.toJSON]
    rcases h.type? with _ | t <;> rcases h.instance? with _ | i <;>
      simp [JsonObj.get_ite, JsonObj.get_setKey]

theorem toJSON_get_type_eq (h : HttpErrorData) (hne : h.type? ≠ some "")
    (hnoext : JsonObj.get h.extensions "type" = none) :
    JsonObj.get (HttpError.toJSON h) "type" = h.type?.map JsonValue.str := by
  rcases hty : h.type? with _ | t
  · simp only [HttpError.toJSON, hty]
    rcases h.instance? with _ | i <;>
      simp [JsonObj.get_ite, JsonObj.get_setKey, hnoext]
  · have htne : ¬ t = "" := fun hh => hne (hh ▸ hty)
    simp only [HttpError.toJSON, hty]
    rcases h.instance? with _ | i <;>
      simp [JsonObj.get_ite, JsonObj.get_setKey, htne]

theorem toJSON_get_instance_eq (h : HttpErrorData) (hne : h.instance? ≠ some "")
    (hnoext : JsonObj.get h.extensions "instance" = none) :
    JsonObj.get (HttpError.toJSON h) "instance" = h.instance?.map JsonValue.str := by
  rcases hin : h.instance? with _ | i
  · simp only [HttpError.toJSON, hin]
    rcases h.type? with _ | t <;>
      simp [JsonObj.get_ite, JsonObj.get_setKey, hnoext]
  · have hine : ¬ i = "" := fun hh => hne (hh ▸ hin)
    simp only [HttpError.toJSON, hin]
    rcases h.type? with _ | t <;>
      simp [JsonObj.get_ite, JsonObj.get_setKey, hine]

theorem toJSON_removeKeys (h : HttpErrorData)
    (hext : ∀ p ∈ h.extensions, p.1 ∉ problemDetailsKeys) :
    JsonObj.removeKeys (HttpError.toJSON h) problemDetailsKeys = h.extensions := by
  have hself := JsonObj.removeKeys_eq_self h.extensions problemDetailsKeys hext
  simp only [problemDetailsKeys] at hself
  simp only [HttpError.toJSON]
  rcases h.type? with _ | t <;> rcases h.instance? with _ | i <;>
    simp [JsonObj.removeKeys_ite, JsonObj.removeKeys_setKey_mem, problemDetailsKeys,
      hself]

theorem statusOutOfRange_num (n : Int) :
    statusOutOfRange (.num n) = (decide (n < 400) || decide (600 ≤ n)) := by
  simp [statusOutOfRange, jsToNumber, JsNum.ltInt, JsNum.geInt]

/-- C7 counterexample: the round-trip does not preserve `extensions` for every
`HttpError`.  For an error whose extensions contain the reserved key
`"title"`, `toJSON` overwrites that key, and the payload branch of `from`
rebuilds the error with empty extensions. -/
theorem roundTrip_counterexample :
    ((HttpError.«from» (.obj (HttpError.toJSON (HttpError.initFields
        { status? := some 404, extensions? := some [("title", .str "hack")] })))).getOk.map
          (fun h => h.extensions) = some []) ∧
    (HttpError.initFields
        { status? := some 404, extensions? := some [("title", .str "hack")] }).extensions =
      [("title", .str "hack")] ∧
    ¬ (([] : JsonObj) = [("title", JsonValue.str "hack")]) :=
  ⟨rfl, rfl, by simp⟩

/-- C7 (amended): for every constructed `HttpError` whose extensions contain
none of the reserved keys `status`/`title`/`detail`/`type`/`instance`,
applying the payload-shaped branch of `from` to `toJSON` of the error yields
an `HttpError` with the same `name`, `status`, `type`, `instance`, and
`extensions`, and whose `message` equals the original `exposedMessage` (the
internal message is not restored; it travels as
`exposedMessage → detail → message`). -/
theorem roundTrip (opts : HttpErrorOptions) (h : HttpErrorData)
    (hc : HttpError.construct opts = .ok h)
    (hext : ∀ p ∈ h.extensions, p.1 ∉ problemDetailsKeys) :
    ∃ h2, HttpError.«from» (.obj (HttpError.toJSON h)) = .ok h2 ∧
      h2.name = h.name ∧ h2.status = h.status ∧ h2.type? = h.type? ∧
      h2.instance? = h.instance? ∧ h2.extensions = h.extensions ∧
      h2.message = h.exposedMessage := by
  obtain ⟨hinit, hge, hlt⟩ := HttpError.construct_ok_inv hc
  have hres := toJSON_get_reserved h
  have hstatus : h.status = opts.status?.getD 500 := by rw [hinit]; rfl
  have htyidem : truthyOpt h.type? = h.type? := by
    rw [hinit]
    show truthyOpt (truthyOpt opts.type?) = truthyOpt opts.type?
    exact truthyOpt_idem _
  have hinidem : truthyOpt h.instance? = h.instance? := by
    rw [hinit]
    show truthyOpt (truthyOpt opts.instance?) = truthyOpt opts.instance?
    exact truthyOpt_idem _
  have htne : h.type? ≠ some "" := by
    rw [hinit]
    exact truthyOpt_ne_some_empty _
  have hine : h.instance? ≠ some "" := by
    rw [hinit]
    exact truthyOpt_ne_some_empty _
  have hnot : ∀ k ∈ problemDetailsKeys, k ∉ h.extensions.map Prod.fst := by
    intro k hk hmem
    obtain ⟨p, hp, hpk⟩ := List.mem_map.mp hmem
    exact hext p hp (hpk ▸ hk)
  have hgetT := toJSON_get_type_eq h htne
    (JsonObj.get_eq_none _ _ (hnot "type" (by decide)))
  have hgetI := toJSON_get_instance_eq h hine
    (JsonObj.get_eq_none _ _ (hnot "instance" (by decide)))
  have hrem := toJSON_removeKeys h hext
  have hpd : isProblemDetailsJson (.obj (HttpError.toJSON h)) = true := by
    simp [isProblemDetailsJson, JsonObj.hasKey_eq_isSome, hres.1]
  have hfsT : jsonFieldStr (HttpError.toJSON h) "title" = some h.name := by
    simp [jsonFieldStr, hres.2.1]
  have hfsD : jsonFieldStr (HttpError.toJSON h) "detail" = some h.exposedMessage := by
    simp [jsonFieldStr, hres.2.2]
  have hfsTy : jsonFieldStr (HttpError.toJSON h) "type" = h.type? := by
    rcases hty : h.type? with _ | t <;> rw [hty] at hgetT <;>
      simp [jsonFieldStr, hgetT]
  have hfsIn : jsonFieldStr (HttpError.toJSON h) "instance" = h.instance? := by
    rcases hin : h.instance? with _ | i <;> rw [hin] at hgetI <;>
      simp [jsonFieldStr, hgetI]
  have hso : statusOutOfRange (.num h.status) = false := by
    rw [statusOutOfRange_num]
    simp only [Bool.or_eq_false_iff, decide_eq_false_iff_not]
    omega
  have hcwrs : constructWithRawStatus (JsonObj.get (HttpError.toJSON h) "status")
      (payloadOptions (HttpError.toJSON h)) =
      .okTyped (HttpError.initFields
        { payloadOptions (HttpError.toJSON h) with status? := some h.status }) := by
    rw [hres.1]
    simp only [constructWithRawStatus, resolveStatus]
    rw [hso]
    simp
  have hfrom : HttpError.«from» (.obj (HttpError.toJSON h)) =
      .ok (HttpError.initFields
        { payloadOptions (HttpError.toJSON h) with status? := some h.status }) := by
    simp only [HttpError.«from», hpd, if_true, hcwrs]
  refine ⟨_, hfrom, ?_, ?_, ?_, ?_, ?_, ?_⟩
  · show (jsonFieldStr (HttpError.toJSON h) "title").getD _ = h.name
    rw [hfsT]
    rfl
  · show (some h.status).getD 500 = h.status
    rfl
  · show truthyOpt (jsonFieldStr (HttpError.toJSON h) "type") = h.type?
    rw [hfsTy, htyidem]
  · show truthyOpt (jsonFieldStr (HttpError.toJSON h) "instance") = h.instance?
    rw [hfsIn, hinidem]
  · show (some (JsonObj.removeKeys (HttpError.toJSON h) problemDetailsKeys)).getD [] =
      h.extensions
    rw [hrem]
    rfl
  · show (jsonFieldStr (HttpError.toJSON h) "detail").getD "" = h.exposedMessage
    rw [hfsD]
    rfl

theorem roundTrip_witness :
    ∃ h2, HttpError.«from» (.obj (HttpError.toJSON (HttpError.initFields
        { status? := some 403, message? := some "secret",
          type? := some "/errors/forbidden",
          extensions? := some [("accountId", .str "user-abc")] }))) = .ok h2 ∧
      h2.name = (HttpError.initFields
        { status? := some 403, message? := some "secret",
          type? := some "/errors/forbidden",
          extensions? := some [("accountId", .str "user-abc")] }).name ∧
      h2.status = (HttpError.initFields
        { status? := some 403, message? := some "secret",
          type? := some "/errors/forbidden",
          extensions? := some [("accountId", .str "user-abc")] }).status ∧
      h2.type? = (HttpError.initFields
        { status? := some 403, message? := some "secret",
          type? := some "/errors/forbidden",
          extensions? := some [("accountId", .str "user-abc")] }).type? ∧
      h2.instance? = (HttpError.initFields
        { status? := some 403, message? := some "secret",
          type? := some "/errors/forbidden",
          extensions? := some [("accountId", .str "user-abc")] }).instance? ∧
      h2.extensions = (HttpError.initFields
        { status? := some 403, message? := some "secret",
          type? := some "/errors/forbidden",
          extensions? := some [("accountId", .str "user-abc")] }).extensions ∧
      h2.message = (HttpError.initFields
        { status? := some 403, message? := some "secret",
          type? := some "/errors/forbidden",
          extensions? := some [("accountId", .str "user-abc")] }).exposedMessage :=
  roundTrip
    { status? := some 403, message? := some "secret",
      type? := some "/errors/forbidden",
      extensions? := some [("accountId", .str "user-abc")] }
    (HttpError.initFields
      { status? := some 403, message? := some "secret",
        type? := some "/errors/forbidden",
        extensions? := some [("accountId", .str "user-abc")] })
    rfl (by decide)

/-- C9: Error-class factory merge.  For every defaults record `d` and every
instantiation of the produced class with an options record `o`, each
caller-supplied field overrides the corresponding field of `d` and absent
caller fields fall back to `d`; `extensions` is the shallow spread of the
default extensions with the caller extensions, in which caller keys win and
unoverridden default keys are retained; and the class created with
`{status: 452, extensions: {code: "X"}}` instantiated with
`{extensions: {detail: "y"}}` has status 452 and extensions
`{code: "X", detail: "y"}`. -/
theorem createHttpErrorClass_merge :
    (∀ d o : HttpErrorOptions,
      (mergeClassOptions (some d) (optionsFromArgs (some (.opts o)) none none)).status? =
        (if o.status?.isSome then o.status? else d.status?) ∧
      (mergeClassOptions (some d) (optionsFromArgs (some (.opts o)) none none)).message? =
        (if o.message?.isSome then o.message? else d.message?) ∧
      (mergeClassOptions (some d) (optionsFromArgs (some (.opts o)) none none)).name? =
        (if o.name?.isSome then o.name? else d.name?) ∧
      (mergeClassOptions (some d) (optionsFromArgs (some (.opts o)) none none)).expose? =
        (if o.expose?.isSome then o.expose? else d.expose?) ∧
      (mergeClassOptions (some d) (optionsFromArgs (some (.opts o)) none none)).cause? =
        (if o.cause?.isSome then o.cause? else d.cause?) ∧
      (mergeClassOptions (some d) (optionsFromArgs (some (.opts o)) none none)).type? =
        (if o.type?.isSome then o.type? else d.type?) ∧
      (mergeClassOptions (some d) (optionsFromArgs (some (.opts o)) none none)).instance? =
        (if o.instance?.isSome then o.instance? else d.instance?) ∧
      (mergeClassOptions (some d) (optionsFromArgs (some (.opts o)) none none)).headers? =
        (if o.headers?.isSome then o.headers? else d.headers?) ∧
      (mergeClassOptions (some d) (optionsFromArgs (some (.opts o)) none none)).statusText? =
        (if o.statusText?.isSome then o.statusText? else d.statusText?) ∧
      (mergeClassOptions (some d) (optionsFromArgs (some (.opts o)) none none)).exposedMessage? =
        (if o.exposedMessage?.isSome then o.exposedMessage? else d.exposedMessage?) ∧
      (mergeClassOptions (some d) (optionsFromArgs (some (.opts o)) none none)).extensions? =
        some (JsonObj.spread (d.extensions?.getD []) (o.extensions?.getD []))) ∧
    (∀ (dext cext : JsonObj) (k : String), (cext.map Prod.fst).Nodup →
      JsonObj.get (JsonObj.spread dext cext) k =
        (if (JsonObj.get cext k).isSome then JsonObj.get cext k
         else JsonObj.get dext k)) ∧
    (createHttpErrorClassNew
        (some { status? := some 452, extensions? := some [("code", .str "X")] })
        (some (.opts { extensions? := some [("detail", .str "y")] })) none none =
      .ok { name := "Unknown Client Error", message := "", status := 452,
            statusText? := none, expose := true, cause? := none, type? := none,
            instance? := none,
            extensions := [("code", .str "X"), ("detail", .str "y")],
            headers := ⟨[("content-type", "application/problem+json")]⟩,
            exposedMessage := "A client error occurred." }) := by
  refine ⟨fun d o => ?_, fun dext cext k hnd => ?_, rfl⟩
  · rw [optionsFromArgs_shape4]
    refine ⟨?_, ?_, ?_, ?_, ?_, ?_, ?_, ?_, ?_, ?_, rfl⟩
    · cases hx : o.status? <;> simp [mergeClassOptions, Option.or, hx]
    · cases hx : o.message? <;> simp [mergeClassOptions, Option.or, hx]
    · cases hx : o.name? <;> simp [mergeClassOptions, Option.or, hx]
    · cases hx : o.expose? <;> simp [mergeClassOptions, Option.or, hx]
    · cases hx : o.cause? <;> simp [mergeClassOptions, Option.or, hx]
    · cases hx : o.type? <;> simp [mergeClassOptions, Option.or, hx]
    · cases hx : o.instance? <;> simp [mergeClassOptions, Option.or, hx]
    · cases hx : o.headers? <;> simp [mergeClassOptions, Option.or, hx]
    · cases hx : o.statusText? <;> simp [mergeClassOptions, Option.or, hx]
    · cases hx : o.exposedMessage? <;> simp [mergeClassOptions, Option.or, hx]
  · rw [JsonObj.get_spread dext cext k hnd]
    cases JsonObj.get cext k <;> simp [Option.or]

theorem createHttpErrorClass_merge_witness :
    JsonObj.get (JsonObj.spread [("code", .str "X")] [("detail", .str "y")]) "code" =
      (if (JsonObj.get [("detail", .str "y")] "code").isSome then
        JsonObj.get [("detail", .str "y")] "code"
       else JsonObj.get [("code", .str "X")] "code") :=
  createHttpErrorClass_merge.2.1 [("code", .str "X")] [("detail", .str "y")] "code"
    (by decide)

/-- C1 counterexample: `from` can throw.  At the concrete payload-shaped
inputs `{status: 200}`, `{status: true}` (booleans coerce to 0/1), and
`{status: "700"}` (numeric strings coerce), the reconstruction calls the
constructor with a status failing the coercing range check, and the range
error escapes from `from` instead of being absorbed into a 500 result. -/
theorem from_never_throws_counterexample :
    (HttpError.«from» (.obj [("status", .num 200)]) = .thrown "invalid error status") ∧
    (HttpError.«from» (.obj [("status", .boolV true)]) = .thrown "invalid error status") ∧
    (HttpError.«from» (.obj [("status", .str "700")]) = .thrown "invalid error status") :=
  ⟨rfl, rfl, rfl⟩

/-- C1 (amended): `from` never throws except when the input synchronously
reaches a reconstruction branch whose resolved status fails the coercing
range check `status < 400 || status >= 600` — an error-like value carrying a
numeric status outside `[400, 599]`, or a payload-shaped plain object whose
raw status value coerces out of that range (numbers outside the range,
booleans, numeric strings such as `"700"`; values coercing to `NaN` never
throw, the object then constructs carrying the raw status).  A response
input always yields a promise that resolves: parse failures,
non-payload-shaped bodies, and even the range error raised while rebuilding
are absorbed into 500 results by the chained catch handler; unrecognized
inputs are absorbed into 500 results with message `"unexpected error type"`
and the original value as cause. -/
theorem from_throw_boundary :
    (∀ v : JsValue, (∃ m, HttpError.«from» v = .thrown m) ↔ fromThrows v) ∧
    (∀ r : ResponseData, HttpError.«from» (.respV r) = .promise (fromResponse r)) ∧
    (∀ s : Int, fromResponse { status := s, body := .error () } =
      .typed (HttpError.new500 "could not parse problem details response" .parseError)) ∧
    (∀ (s : Int) (j : JsonValue), isProblemDetailsJson j = false →
      fromResponse { status := s, body := .ok j } =
        .typed (HttpError.new500 "invalid problem details response" (.jsonV j))) ∧
    (∀ (s : Int) (o : JsonObj) (v : JsonValue), JsonObj.get o "status" = some v →
      jsTruthy v = true → statusOutOfRange v = true →
      fromResponse { status := s, body := .ok (.obj o) } =
        .typed (HttpError.new500 "could not parse problem details response"
          (.rangeError "invalid error status"))) ∧
    (∀ v : JsValue, isUnrecognized v = true →
      HttpError.«from» v = .ok (HttpError.new500 "unexpected error type" (causeOfJs v))) ∧
    (∀ (m : String) (c : CauseV),
      (HttpError.new500 m c).status = 500 ∧ (HttpError.new500 m c).message = m ∧
        (HttpError.new500 m c).cause? = some c) := by
  refine ⟨fun v => ?_, fun r => rfl, fun s => rfl, fun s j hj => ?_, fun s o v hg htr hso => ?_,
    fun v hv => ?_, fun m c => ⟨rfl, rfl, rfl⟩⟩
  · cases v with
    | httpErrV h => simp [HttpError.«from», fromThrows]
    | errV e =>
      rcases hst : e.status? with _ | n
      · simp [HttpError.«from», fromThrows, hst]
      · by_cases hn : n < 400 ∨ 600 ≤ n
        · have herr := HttpError.construct_error_of (optionsFromErrorLike e n)
            (by simpa [optionsFromErrorLike] using hn)
          simp [HttpError.«from», hst, herr, fromThrows, hn]
        · push_neg at hn
          have hok := HttpError.construct_ok_of (optionsFromErrorLike e n)
            (by simpa [optionsFromErrorLike] using hn.1)
            (by simpa [optionsFromErrorLike] using hn.2)
          simp only [HttpError.«from», hst, hok, fromThrows]
          constructor
          · rintro ⟨m, hm⟩
            exact absurd hm (by simp)
          · intro hcon
            omega
    | respV r => simp [HttpError.«from», fromThrows]
    | obj o =>
      by_cases hpd : isProblemDetailsJson (.obj o) = true
      · by_cases hso : statusOutOfRange (resolveStatus (JsonObj.get o "status")) = true
        · simp [HttpError.«from», constructWithRawStatus, hpd, hso, fromThrows]
        · rcases hc : constructWithRawStatus (JsonObj.get o "status") (payloadOptions o)
            with m | hh | dd
          · exfalso
            simp only [constructWithRawStatus, if_neg hso] at hc
            cases hrs : resolveStatus (JsonObj.get o "status") <;>
              rw [hrs] at hc <;> simp at hc
          · simp [HttpError.«from», hpd, hc, fromThrows, hso]
          · simp [HttpError.«from», hpd, hc, fromThrows, hso]
      · simp [HttpError.«from», hpd, fromThrows]
    | undef => simp [HttpError.«from», fromThrows]
    | nullV => simp [HttpError.«from», fromThrows]
    | num k => simp [HttpError.«from», fromThrows]
    | str t => simp [HttpError.«from», fromThrows]
    | boolV b => simp [HttpError.«from», fromThrows]
    | symbolV => simp [HttpError.«from», fromThrows]
    | funcV => simp [HttpError.«from», fromThrows]
  · simp [fromResponse, hj]
  · have hpd : isProblemDetailsJson (.obj o) = true := by
      simp [isProblemDetailsJson, JsonObj.hasKey_eq_isSome, hg]
    have hraw : respRawStatus o s = some v := by
      simp [respRawStatus, hg, htr]
    have hresolve : resolveStatus (respRawStatus o s) = v := by
      rw [hraw]
      cases v <;> simp_all [resolveStatus, jsTruthy]
    have hcw : constructWithRawStatus (respRawStatus o s) (payloadOptions o) =
        .thrownErr "invalid error status" := by
      simp only [constructWithRawStatus, hresolve]
      rw [if_pos hso]
    simp [fromResponse, hpd, hcw]
  · cases v with
    | obj o =>
      simp only [isUnrecognized, Bool.not_eq_true'] at hv
      simp [HttpError.«from», hv]
    | errV e => simp [isUnrecognized] at hv
    | httpErrV h => simp [isUnrecognized] at hv
    | respV r => simp [isUnrecognized] at hv
    | undef => rfl
    | nullV => rfl
    | num k => rfl
    | str t => rfl
    | boolV b => rfl
    | symbolV => rfl
    | funcV => rfl

theorem from_throw_boundary_witness :
    (fromResponse { status := 200, body := .ok (.num 5) } =
      .typed (HttpError.new500 "invalid problem details response" (.jsonV (.num 5)))) ∧
    (fromResponse { status := 400, body := .ok (.obj [("status", .num 200)]) } =
      .typed (HttpError.new500 "could not parse problem details response"
        (.rangeError "invalid error status"))) ∧
    (HttpError.«from» .undef =
      .ok (HttpError.new500 "unexpected error type" (causeOfJs .undef))) :=
  ⟨from_throw_boundary.2.2.2.1 200 (.num 5) rfl,
   from_throw_boundary.2.2.2.2.1 400 [("status", .num 200)] (.num 200) rfl rfl rfl,
   from_throw_boundary.2.2.2.2.2.1 .undef rfl⟩
